import Mathlib

/-!
# Cloudwatch output generator

A shallow embedding of `internal/generator/vector/output/cloudwatch/cloudwatch.go`.

Go strings are modelled by Lean `String` (sequences of Unicode scalar values).
`fmt.Sprintf` with `%s` verbs is string concatenation.  A nil pointer is `none`;
a nil-pointer dereference (a Go run-time fault) makes the enclosing function return `none`.
-/

namespace Cloudwatch

/-! ## Go standard library -/

/-- Go `unicode.IsSpace`: the Latin-1 spaces `\t \n \v \f \r`, space, U+0085, U+00A0 and the
other code points with the White_Space property. -/
def isSpace (c : Char) : Bool :=
  let n := c.toNat
  n = 0x09 || n = 0x0A || n = 0x0B || n = 0x0C || n = 0x0D || n = 0x20 || n = 0x85 || n = 0xA0 ||
  n = 0x1680 || (0x2000 ≤ n && n ≤ 0x200A) || n = 0x2028 || n = 0x2029 || n = 0x202F ||
  n = 0x205F || n = 0x3000

/-- Go `strings.TrimSpace`: the string without its leading and trailing white space. -/
def TrimSpace (s : String) : String :=
  ⟨((s.data.dropWhile isSpace).reverse.dropWhile isSpace).reverse⟩

/-! ## Types of the API packages that the generator reads -/

/-- The fields of `logging.Cloudwatch` read by the generator.  `GroupBy` has the Go type
`LogGroupByType`, a string type; `GroupPrefix` is a `*string`. -/
structure CloudwatchSpec where
  Region : String
  GroupBy : String
  GroupPrefix : Option String
deriving DecidableEq, Repr

/-- The fields of `logging.OutputSpec` read by the generator; `Cloudwatch` is a pointer. -/
structure OutputSpec where
  Name : String
  URL : String
  Cloudwatch : Option CloudwatchSpec
deriving DecidableEq, Repr

/-- The data of a `corev1.Secret`: a map from key names to values, as an association list. -/
structure Secret where
  Data : List (String × String)
deriving DecidableEq, Repr

/-- Modelled from the spec: `generator.Options` and `genhelper.IsDebugOutput` are not part of
the sources at hand; the spec (sections 3 and 6) describes the generation options as carrying
a boolean debug flag, `GenerationOptions{debug: bool}`. -/
structure Options where
  debug : Bool
deriving DecidableEq, Repr

/-- Modelled from the spec: `genhelper.IsDebugOutput` reads the debug flag of the options. -/
def IsDebugOutput (op : Options) : Bool := op.debug

/-- Modelled from the spec: `security.GetFromSecret` is not part of the sources at hand; the
spec (section 4.3) says that the lookup gives the value stored under the key when the secret is
present and contains the key, and the empty text otherwise, and that it never fails. -/
def GetFromSecret (secret : Option Secret) (name : String) : String :=
  match secret with
  | some s => (s.Data.lookup name).getD ""
  | none => ""

/-- The functions and constants of other packages used by the generator whose code is not part
of the sources at hand; every result below holds for all of them.
* `FormatComponentID`, `MakeInputs`: package `vector/helpers`;
* `Quote`: the `%q` verb of `fmt.Sprintf` on a string (`strconv.Quote`);
* `LogGroupByNamespaceName`, `LogGroupByNamespaceUUID`: constants of type `LogGroupByType`. -/
structure Env where
  FormatComponentID : String → String
  MakeInputs : List String → String
  Quote : String → String
  LogGroupByNamespaceName : String
  LogGroupByNamespaceUUID : String

/-! ## Elements -/

/-- The `Element` values built by this package: the dynamic type and the fields of each.
`Debug id inputs` stands for the value returned by `elements.Debug(id, inputs)`. -/
inductive Element where
  | Endpoint (URL : String)
  | AWSKey (KeyID KeySecret : String)
  | Remap (Desc ComponentID Inputs VRL : String)
  | CloudWatch (Desc ComponentID Inputs Region : String) (EndpointConfig SecurityConfig : Element)
  | Debug (id inputs : String)
deriving DecidableEq, Repr

/-- An element together with the elements nested in it. -/
def Element.parts : Element → List Element
  | .CloudWatch d c i r ec sc =>
      .CloudWatch d c i r ec sc :: (ec.parts ++ sc.parts)
  | e => [e]

/-- Whether the element is the CloudWatch sink. -/
def Element.isCloudWatch : Element → Bool
  | .CloudWatch .. => true
  | _ => false

/-- Whether the element is the credentials (security) element. -/
def Element.isAWSKey : Element → Bool
  | .AWSKey .. => true
  | _ => false

/-- Whether the element is the endpoint element. -/
def Element.isEndpoint : Element → Bool
  | .Endpoint .. => true
  | _ => false

/-! ## The generator -/

/-- `SecurityConfig` of the source. -/
def SecurityConfig (secret : Option Secret) : Element :=
  .AWSKey (TrimSpace (GetFromSecret secret "aws_access_key_id"))
    (TrimSpace (GetFromSecret secret "aws_secret_access_key"))

/-- `EndpointConfig` of the source. -/
def EndpointConfig (o : OutputSpec) : Element :=
  .Endpoint o.URL

/-- `NormalizeGroupAndStreamName` of the source.  The raw string literal of the source is cut
where the three computed names are spliced in; it starts with a line break and ends with a
line break and a tab, which `strings.TrimSpace` then removes. -/
def NormalizeGroupAndStreamName (env : Env) (logGroupNameField logGroupPrefix componentID : String)
    (inputs : List String) : Element :=
  let appGroupName := env.Quote logGroupPrefix ++ " + " ++ logGroupNameField
  let auditGroupName := logGroupPrefix ++ "audit"
  let infraGroupName := logGroupPrefix ++ "infrastructure"
  let vrl := TrimSpace ("\n.group_name = \"default\"\n.stream_name = \"default\"\n\nif (.file != null) \x7b\n .file = \"kubernetes\" + replace!(.file, \"/\", \".\")\n .stream_name = del(.file)\n\x7d\n\nif ( .log_type == \"application\" ) \x7b\n .group_name = ( " ++ appGroupName ++ " ) ?? \"application\"\n\x7d\nif ( .log_type == \"audit\" ) \x7b\n .group_name = \"" ++ auditGroupName ++ "\"\n .stream_name = ( \"$\x7bVECTOR_SELF_NODE_NAME\x7d\" + .tag ) ?? .stream_name\n\x7d\nif ( .log_type == \"infrastructure\" ) \x7b\n .group_name = \"" ++ infraGroupName ++ "\"\n .stream_name = ( .hostname + \".\" + .stream_name ) ?? .stream_name\n\x7d\nif ( .tag == \".journal.system\" ) \x7b\n .stream_name =  ( .hostname + .tag ) ?? .stream_name\n\x7d\ndel(.tag)\ndel(.source_type)\n\t")
  .Remap "Cloudwatch Group and Stream Names" componentID (env.MakeInputs inputs) vrl

/-- `LogGroupPrefix` of the source. -/
def LogGroupPrefix (o : OutputSpec) : String :=
  match o.Cloudwatch with
  | some cw =>
    match cw.GroupPrefix with
    | some p => if TrimSpace p ≠ "" then p ++ "." else ""
    | none => ""
  | none => ""

/-- `LogGroupNameField` of the source: the field used for grouping the application logs. -/
def LogGroupNameField (env : Env) (o : OutputSpec) : String :=
  match o.Cloudwatch with
  | some cw =>
    if cw.GroupBy = env.LogGroupByNamespaceName then ".kubernetes.namespace_name"
    else if cw.GroupBy = env.LogGroupByNamespaceUUID then ".kubernetes.namespace_uid"
    else ".log_type"
  | none => ""

/-- `OutputConf` of the source. -/
def OutputConf (env : Env) (o : OutputSpec) (inputs : List String) (secret : Option Secret)
    (_op : Options) (region : String) : Element :=
  .CloudWatch "Cloudwatch Logs" (env.FormatComponentID o.Name) (env.MakeInputs inputs) region
    (EndpointConfig o) (SecurityConfig secret)

/-- `Conf` of the source.  On the path without the debug option the source reads
`o.Cloudwatch.Region`, a nil-pointer dereference when the spec has no cloudwatch options. -/
def Conf (env : Env) (o : OutputSpec) (inputs : List String) (secret : Option Secret)
    (op : Options) : Option (List Element) :=
  let outputName := env.FormatComponentID o.Name
  let componentID := outputName ++ "_" ++ "normalize_group_and_streams"
  if IsDebugOutput op then
    some [NormalizeGroupAndStreamName env (LogGroupNameField env o) (LogGroupPrefix o) componentID inputs,
      .Debug outputName (env.MakeInputs [componentID])]
  else
    match o.Cloudwatch with
    | some cw =>
      some [NormalizeGroupAndStreamName env (LogGroupNameField env o) (LogGroupPrefix o) componentID inputs,
        OutputConf env o [componentID] secret op cw.Region]
    | none => none

/-! ## The rules of the normalization program, one by one

The pieces of the program text named after the rules of the normalization stage; the theorems
below compare the text built by `NormalizeGroupAndStreamName` with them. -/

/-- The two default assignments, followed by an empty line. -/
def defaultsText : String :=
  ".group_name = \"default\"\n.stream_name = \"default\"\n\n"

/-- The rule for records carrying a `file` field, followed by an empty line. -/
def fileRule : String :=
  "if (.file != null) \x7b\n .file = \"kubernetes\" + replace!(.file, \"/\", \".\")\n .stream_name = del(.file)\n\x7d\n\n"

/-- The assignment of the application rule: the group name is the quoted group name start
joined by `+` to the group-name field, with the literal `"application"` as fallback. -/
def appAssign (env : Env) (p f : String) : String :=
  " .group_name = ( " ++ env.Quote p ++ " + " ++ f ++ " ) ?? \"application\""

/-- The conditional of the application rule. -/
def appRule (env : Env) (p f : String) : String :=
  "if ( .log_type == \"application\" ) \x7b\n" ++ appAssign env p f ++ "\n\x7d"

/-- The stream-name assignment of the audit rule. -/
def auditStreamAssign : String :=
  " .stream_name = ( \"$\x7bVECTOR_SELF_NODE_NAME\x7d\" + .tag ) ?? .stream_name"

/-- The text that the audit rule assigns to `.group_name`: a double quote, the group name start,
the word `audit` and a double quote. -/
def auditGroupLiteral (p : String) : String :=
  "\"" ++ p ++ "audit" ++ "\""

/-- The conditional of the audit rule. -/
def auditRule (p : String) : String :=
  "if ( .log_type == \"audit\" ) \x7b\n .group_name = " ++ auditGroupLiteral p ++ "\n" ++
    auditStreamAssign ++ "\n\x7d"

/-- The text that the infrastructure rule assigns to `.group_name`. -/
def infraGroupLiteral (p : String) : String :=
  "\"" ++ p ++ "infrastructure" ++ "\""

/-- The conditional of the infrastructure rule. -/
def infraRule (p : String) : String :=
  "if ( .log_type == \"infrastructure\" ) \x7b\n .group_name = " ++ infraGroupLiteral p ++
    "\n .stream_name = ( .hostname + \".\" + .stream_name ) ?? .stream_name\n\x7d"

/-- The stream-name assignment of the journal-system rule. -/
def journalStreamAssign : String :=
  " .stream_name =  ( .hostname + .tag ) ?? .stream_name"

/-- The conditional of the journal-system rule. -/
def journalRule : String :=
  "if ( .tag == \".journal.system\" ) \x7b\n" ++ journalStreamAssign ++ "\n\x7d"

/-- The two unconditional deletions. -/
def deletions : String :=
  "del(.tag)\ndel(.source_type)"

/-- The whole program: defaults, file rule, application rule, audit rule, infrastructure rule,
journal-system rule and deletions, in this order, one rule per conditional. -/
def program (env : Env) (f p : String) : String :=
  defaultsText ++ fileRule ++ appRule env p f ++ "\n" ++ auditRule p ++ "\n" ++ infraRule p ++
    "\n" ++ journalRule ++ "\n" ++ deletions

/-- Reading back a double-quoted string literal with backslash escapes: the input is the text
after the opening quote; the result is the string denoted up to the closing quote (the first
quote that is not escaped) and the text left after it, or `none` when no quote closes the
literal or an escape is unknown. -/
def readLiteral : List Char → Option (List Char × List Char)
  | [] => none
  | '"' :: rest => some ([], rest)
  | '\\' :: c :: rest =>
    let dec : Option Char :=
      if c = '"' then some '"' else if c = '\\' then some '\\' else if c = 'n' then some '\n'
      else if c = 't' then some '\t' else if c = 'r' then some '\r' else none
    match dec, readLiteral rest with
    | some d, some (v, k) => some (d :: v, k)
    | _, _ => none
  | c :: rest =>
    match readLiteral rest with
    | some (v, k) => some (c :: v, k)
    | none => none

/-- The string denoted by a text that starts with a double-quoted literal, with what follows. -/
def denoted (s : String) : Option (String × String) :=
  match s.data with
  | '"' :: rest => (readLiteral rest).map fun r => (String.mk r.1, String.mk r.2)
  | _ => none

/-! ## The templates of the elements defined in this package -/

/-- `Endpoint` of the source: the endpoint element, with the custom URL of the output. -/
structure Endpoint where
  URL : String
deriving DecidableEq, Repr

/-- `Endpoint.Name` of the source. -/
def Endpoint.Name (_e : Endpoint) : String :=
  "awsEndpointTemplate"

/-- `Endpoint.Template` of the source: the wrapper that opens the definition, the two lines on
the endpoint when the URL is not empty, and the end of the definition. -/
def Endpoint.Template (e : Endpoint) : String :=
  let ret := "\x7b\x7bdefine \"" ++ e.Name ++ "\" -\x7d\x7d"
  let ret := if e.URL ≠ "" then ret ++ "endpoint = \"\x7b\x7b .URL \x7d\x7d\"\ntls.verify_certificate = false" else ret
  ret ++ "\x7b\x7bend\x7d\x7d"

/-- The endpoint as an `Element` value. -/
def Endpoint.toElement (e : Endpoint) : Element :=
  .Endpoint e.URL

/-- `CloudWatch` of the source: the sink element. -/
structure CloudWatch where
  Desc : String
  ComponentID : String
  Inputs : String
  Region : String
  EndpointConfig : Element
  SecurityConfig : Element
deriving DecidableEq, Repr

/-- `CloudWatch.Name` of the source. -/
def CloudWatch.Name (_e : CloudWatch) : String :=
  "cloudwatchTemplate"

/-- `CloudWatch.Template` of the source. -/
def CloudWatch.Template (e : CloudWatch) : String :=
  "\x7b\x7bdefine \"" ++ e.Name ++ "\" -\x7d\x7d\n\x7b\x7bif .Desc -\x7d\x7d\n# \x7b\x7b.Desc\x7d\x7d\n\x7b\x7bend -\x7d\x7d\n[sinks.\x7b\x7b.ComponentID\x7d\x7d]\ntype = \"aws_cloudwatch_logs\"\ninputs = \x7b\x7b.Inputs\x7d\x7d\nregion = \"\x7b\x7b.Region\x7d\x7d\"\ncompression = \"none\"\ngroup_name = \"\x7b\x7b\"\x7b\x7b group_name \x7d\x7d\"\x7d\x7d\"\nstream_name = \"\x7b\x7b\"\x7b\x7b stream_name \x7d\x7d\"\x7d\x7d\"\n\x7b\x7bcompose_one .SecurityConfig\x7d\x7d\nencoding.codec = \"json\"\nrequest.concurrency = 2\n\x7b\x7bcompose_one .EndpointConfig\x7d\x7d\n\x7b\x7b- end\x7d\x7d\n"

/-- The sink as an `Element` value. -/
def CloudWatch.toElement (e : CloudWatch) : Element :=
  .CloudWatch e.Desc e.ComponentID e.Inputs e.Region e.EndpointConfig e.SecurityConfig

/-- The program up to the assignment of the journal-system rule, the last statement inside a
conditional. -/
def programBody (env : Env) (f p : String) : String :=
  defaultsText ++ fileRule ++ appRule env p f ++ "\n" ++ auditRule p ++ "\n" ++
    infraRule p ++ "\n" ++ "if ( .tag == \".journal.system\" ) \x7b\n" ++ journalStreamAssign

/-- The lines of a text: the pieces between its line breaks, in order.  A text without line
break is one line; a text that ends with a line break has an empty last line. -/
def linesOf : List Char → List (List Char)
  | [] => [[]]
  | c :: cs =>
    if c = '\n' then [] :: linesOf cs
    else
      match linesOf cs with
      | [] => [[c]]
      | l :: ls => (c :: l) :: ls

/-- A text is the trimmed form of another one: the other text is the trimmed one between two
runs of white space, and the trimmed one neither starts nor ends with white space. -/
def IsTrimmedOf (t v : String) : Prop :=
  (∃ l r, v.data = l ++ t.data ++ r ∧ (∀ c ∈ l, isSpace c = true) ∧ (∀ c ∈ r, isSpace c = true)) ∧
  (∀ c k, t.data = c :: k → isSpace c = false) ∧
  (∀ k c, t.data = k ++ [c] → isSpace c = false)

/-! ## A sample environment -/

/-- Quoting for the sample environment: double quotes around the text, with a backslash before
each double quote and each backslash. -/
def sampleQuote (s : String) : String :=
  "\"" ++ String.mk (s.data.flatMap fun c => if c = '"' ∨ c = '\\' then ['\\', c] else [c]) ++ "\""

/-- Modelled from the spec: the helpers `FormatComponentID` and `MakeInputs` and the group-by
constants are not part of the sources at hand.  This sample environment follows the scenario of
the spec (section 8), where the output named `cw1` has the component ID `cw1`, and the shape of
the inputs line of section 6, the quoted IDs separated by commas between brackets.  It only
serves to instantiate the general results at concrete inputs. -/
def sampleEnv : Env where
  FormatComponentID := fun name => name
  MakeInputs := fun ids => "[" ++ ",".intercalate (ids.map sampleQuote) ++ "]"
  Quote := sampleQuote
  LogGroupByNamespaceName := "namespaceName"
  LogGroupByNamespaceUUID := "namespaceUUID"

/-! ## Auxiliary facts -/

theorem data_append3 (a b c : String) : (a ++ b ++ c).data = a.data ++ (b.data ++ c.data) := by
  simp [String.data_append]

/-- Trimming a text wrapped in a leading line break and a trailing line break and tab gives the
text back, when the text starts and ends with characters that are not white space. -/
theorem TrimSpace_wrap (s : String) (c d : Char) (xs ys : List Char)
    (h1 : s.data = c :: xs) (h2 : s.data = ys ++ [d])
    (hc : isSpace c = false) (hd : isSpace d = false) :
    TrimSpace ("\n" ++ s ++ "\n\t") = s := by
  have e : ("\n" ++ s ++ "\n\t").data = '\n' :: (s.data ++ ['\n', '\t']) := by
    rw [data_append3]; rfl
  have n1 : isSpace '\n' = true := by decide
  have n2 : isSpace '\t' = true := by decide
  unfold TrimSpace
  rw [e, List.dropWhile_cons_of_pos n1]
  have e2 : List.dropWhile isSpace (s.data ++ ['\n', '\t']) = s.data ++ ['\n', '\t'] := by
    rw [h1, List.cons_append, List.dropWhile_cons_of_neg (by simp [hc])]
  rw [e2, List.reverse_append]
  have e3 : (['\n', '\t'] : List Char).reverse = ['\t', '\n'] := rfl
  rw [e3, List.cons_append, List.cons_append, List.nil_append,
    List.dropWhile_cons_of_pos n2, List.dropWhile_cons_of_pos n1]
  have e4 : List.dropWhile isSpace s.data.reverse = s.data.reverse := by
    rw [h2, List.reverse_append, List.reverse_singleton, List.singleton_append,
      List.dropWhile_cons_of_neg (by simp [hd])]
  rw [e4, List.reverse_reverse]

/-- The first piece of the raw literal of the source, up to the application group name. -/
theorem raw_piece1 :
    "\n.group_name = \"default\"\n.stream_name = \"default\"\n\nif (.file != null) \x7b\n .file = \"kubernetes\" + replace!(.file, \"/\", \".\")\n .stream_name = del(.file)\n\x7d\n\nif ( .log_type == \"application\" ) \x7b\n .group_name = ( "
      = "\n" ++ (defaultsText ++ (fileRule ++
          ("if ( .log_type == \"application\" ) \x7b\n" ++ " .group_name = ( "))) := by
  simp [defaultsText, fileRule]

/-- The second piece of the raw literal, between the application and the audit group names. -/
theorem raw_piece2 :
    " ) ?? \"application\"\n\x7d\nif ( .log_type == \"audit\" ) \x7b\n .group_name = \""
      = " ) ?? \"application\"" ++ ("\n\x7d" ++ ("\n" ++
          ("if ( .log_type == \"audit\" ) \x7b\n .group_name = " ++ "\""))) := by
  simp

/-- The third piece of the raw literal, between the audit and the infrastructure group names. -/
theorem raw_piece3 :
    "\"\n .stream_name = ( \"$\x7bVECTOR_SELF_NODE_NAME\x7d\" + .tag ) ?? .stream_name\n\x7d\nif ( .log_type == \"infrastructure\" ) \x7b\n .group_name = \""
      = "\"" ++ ("\n" ++ (auditStreamAssign ++ ("\n\x7d" ++ ("\n" ++
          ("if ( .log_type == \"infrastructure\" ) \x7b\n .group_name = " ++ "\""))))) := by
  simp [auditStreamAssign]

/-- The last piece of the raw literal, after the infrastructure group name. -/
theorem raw_piece4 :
    "\"\n .stream_name = ( .hostname + \".\" + .stream_name ) ?? .stream_name\n\x7d\nif ( .tag == \".journal.system\" ) \x7b\n .stream_name =  ( .hostname + .tag ) ?? .stream_name\n\x7d\ndel(.tag)\ndel(.source_type)\n\t"
      = "\"" ++ ("\n .stream_name = ( .hostname + \".\" + .stream_name ) ?? .stream_name\n\x7d" ++
          ("\n" ++ (journalRule ++ ("\n" ++ (deletions ++ "\n\t"))))) := by
  simp [journalRule, journalStreamAssign, deletions]

/-- The text built by `NormalizeGroupAndStreamName` before trimming is the program wrapped in a
leading line break and a trailing line break and tab. -/
theorem raw_eq_wrap (env : Env) (f p : String) :
    ("\n.group_name = \"default\"\n.stream_name = \"default\"\n\nif (.file != null) \x7b\n .file = \"kubernetes\" + replace!(.file, \"/\", \".\")\n .stream_name = del(.file)\n\x7d\n\nif ( .log_type == \"application\" ) \x7b\n .group_name = ( " ++ (env.Quote p ++ " + " ++ f) ++ " ) ?? \"application\"\n\x7d\nif ( .log_type == \"audit\" ) \x7b\n .group_name = \"" ++ (p ++ "audit") ++ "\"\n .stream_name = ( \"$\x7bVECTOR_SELF_NODE_NAME\x7d\" + .tag ) ?? .stream_name\n\x7d\nif ( .log_type == \"infrastructure\" ) \x7b\n .group_name = \"" ++ (p ++ "infrastructure") ++ "\"\n .stream_name = ( .hostname + \".\" + .stream_name ) ?? .stream_name\n\x7d\nif ( .tag == \".journal.system\" ) \x7b\n .stream_name =  ( .hostname + .tag ) ?? .stream_name\n\x7d\ndel(.tag)\ndel(.source_type)\n\t")
      = "\n" ++ program env f p ++ "\n\t" := by
  rw [raw_piece1, raw_piece2, raw_piece3, raw_piece4]
  simp only [program, appRule, appAssign, auditRule, auditGroupLiteral, infraRule,
    infraGroupLiteral, String.append_assoc]

/-- The program starts with a dot. -/
theorem program_head (env : Env) (f p : String) :
    ∃ xs, (program env f p).data = '.' :: xs := by
  have h : defaultsText = "." ++ "group_name = \"default\"\n.stream_name = \"default\"\n\n" := by
    simp [defaultsText]
  refine ⟨("group_name = \"default\"\n.stream_name = \"default\"\n\n" ++ (fileRule ++
    (appRule env p f ++ ("\n" ++ (auditRule p ++ ("\n" ++ (infraRule p ++ ("\n" ++ (journalRule ++
    ("\n" ++ deletions)))))))))).data, ?_⟩
  simp only [program, String.append_assoc]
  rw [h, String.append_assoc, String.data_append]
  rfl

/-- The program ends with a closing bracket. -/
theorem program_last (env : Env) (f p : String) :
    ∃ ys, (program env f p).data = ys ++ [')'] := by
  have h : deletions = "del(.tag)\ndel(.source_type" ++ ")" := by
    simp [deletions]
  refine ⟨(defaultsText ++ fileRule ++ appRule env p f ++ "\n" ++ auditRule p ++ "\n" ++
    infraRule p ++ "\n" ++ journalRule ++ "\n" ++ "del(.tag)\ndel(.source_type").data, ?_⟩
  simp only [program]
  rw [h, ← String.append_assoc, String.data_append]

/-- Trimming the wrapped program gives the program. -/
theorem program_trim (env : Env) (f p : String) :
    TrimSpace ("\n" ++ program env f p ++ "\n\t") = program env f p := by
  obtain ⟨xs, hx⟩ := program_head env f p
  obtain ⟨ys, hy⟩ := program_last env f p
  exact TrimSpace_wrap (program env f p) '.' ')' xs ys hx hy (by decide) (by decide)

/-- The element built by `NormalizeGroupAndStreamName`, with its program text spelled out. -/
theorem NormalizeGroupAndStreamName_eq (env : Env) (f p cid : String) (inputs : List String) :
    NormalizeGroupAndStreamName env f p cid inputs =
      .Remap "Cloudwatch Group and Stream Names" cid (env.MakeInputs inputs) (program env f p) := by
  have h := raw_eq_wrap env f p
  have t := program_trim env f p
  unfold NormalizeGroupAndStreamName
  simp only
  rw [h, t]

/-- The component ID of the normalization stage, written as one suffix. -/
theorem componentID_eq (a : String) :
    a ++ "_" ++ "normalize_group_and_streams" = a ++ "_normalize_group_and_streams" := by
  rw [String.append_assoc]; rfl

/-- What `Conf` computes with the debug option. -/
theorem Conf_of_debug (env : Env) (o : OutputSpec) (inputs : List String)
    (secret : Option Secret) (op : Options) (hd : IsDebugOutput op = true) :
    Conf env o inputs secret op =
      some [NormalizeGroupAndStreamName env (LogGroupNameField env o) (LogGroupPrefix o)
          (env.FormatComponentID o.Name ++ "_normalize_group_and_streams") inputs,
        .Debug (env.FormatComponentID o.Name)
          (env.MakeInputs [env.FormatComponentID o.Name ++ "_normalize_group_and_streams"])] := by
  unfold Conf
  simp only [hd, if_true, componentID_eq]

/-- What `Conf` computes without the debug option, on a spec with cloudwatch options. -/
theorem Conf_of_not_debug (env : Env) (o : OutputSpec) (cw : CloudwatchSpec)
    (inputs : List String) (secret : Option Secret) (op : Options)
    (h : o.Cloudwatch = some cw) (hd : IsDebugOutput op = false) :
    Conf env o inputs secret op =
      some [NormalizeGroupAndStreamName env (LogGroupNameField env o) (LogGroupPrefix o)
          (env.FormatComponentID o.Name ++ "_normalize_group_and_streams") inputs,
        OutputConf env o [env.FormatComponentID o.Name ++ "_normalize_group_and_streams"]
          secret op cw.Region] := by
  unfold Conf
  simp only [hd, h, componentID_eq, Bool.false_eq_true, if_false]

/-! ## The fragments returned by `Conf` -/

/-- C1: for every output spec that has cloudwatch options, every list of input IDs, every secret
and both values of the debug option, `Conf` returns a list whose first fragment is the
normalization `Remap` with component ID `FormatComponentID(o.Name)` followed by
`_normalize_group_and_streams` and with inputs `MakeInputs(inputIDs)`. -/
theorem Conf_first_fragment (env : Env) (o : OutputSpec) (cw : CloudwatchSpec)
    (inputIDs : List String) (secret : Option Secret) (op : Options)
    (h : o.Cloudwatch = some cw) :
    ∃ rest, Conf env o inputIDs secret op =
      some (Element.Remap "Cloudwatch Group and Stream Names"
        (env.FormatComponentID o.Name ++ "_normalize_group_and_streams")
        (env.MakeInputs inputIDs)
        (program env (LogGroupNameField env o) (LogGroupPrefix o)) :: rest) := by
  cases hd : IsDebugOutput op
  · exact ⟨_, by rw [Conf_of_not_debug env o cw inputIDs secret op h hd,
      NormalizeGroupAndStreamName_eq]⟩
  · exact ⟨_, by rw [Conf_of_debug env o inputIDs secret op hd,
      NormalizeGroupAndStreamName_eq]⟩

/-- C1 at the output `cw1` of region `us-east-1` reading from `app-pipeline`, with the debug
option. -/
theorem Conf_first_fragment_witness :
    (OutputSpec.mk "cw1" "" (some ⟨"us-east-1", "", none⟩)).Cloudwatch
        = some ⟨"us-east-1", "", none⟩ ∧
    ∃ rest, Conf sampleEnv ⟨"cw1", "", some ⟨"us-east-1", "", none⟩⟩ ["app-pipeline"] none ⟨true⟩ =
      some (Element.Remap "Cloudwatch Group and Stream Names"
        (sampleEnv.FormatComponentID "cw1" ++ "_normalize_group_and_streams")
        (sampleEnv.MakeInputs ["app-pipeline"])
        (program sampleEnv
          (LogGroupNameField sampleEnv ⟨"cw1", "", some ⟨"us-east-1", "", none⟩⟩)
          (LogGroupPrefix ⟨"cw1", "", some ⟨"us-east-1", "", none⟩⟩)) :: rest) :=
  ⟨rfl, Conf_first_fragment sampleEnv ⟨"cw1", "", some ⟨"us-east-1", "", none⟩⟩
    ⟨"us-east-1", "", none⟩ ["app-pipeline"] none ⟨true⟩ rfl⟩

/-- C2: for every output spec (with or without cloudwatch options), input list and secret, with
the debug option set `Conf` returns exactly two fragments, the normalization fragment followed
by the Debug sink whose ID is `FormatComponentID(o.Name)` and whose inputs are `MakeInputs` of
the single normalize component ID; no CloudWatch sink, security element or endpoint element is
in the result, at any depth. -/
theorem Conf_debug_fragments (env : Env) (o : OutputSpec) (inputIDs : List String)
    (secret : Option Secret) (op : Options) (hd : IsDebugOutput op = true) :
    Conf env o inputIDs secret op =
      some [NormalizeGroupAndStreamName env (LogGroupNameField env o) (LogGroupPrefix o)
          (env.FormatComponentID o.Name ++ "_normalize_group_and_streams") inputIDs,
        Element.Debug (env.FormatComponentID o.Name)
          (env.MakeInputs [env.FormatComponentID o.Name ++ "_normalize_group_and_streams"])] ∧
    ∀ r, Conf env o inputIDs secret op = some r →
      r.length = 2 ∧
      ∀ e ∈ r, ∀ x ∈ e.parts,
        x.isCloudWatch = false ∧ x.isAWSKey = false ∧ x.isEndpoint = false := by
  have hc := Conf_of_debug env o inputIDs secret op hd
  refine ⟨hc, ?_⟩
  intro r hr
  rw [hc, NormalizeGroupAndStreamName_eq] at hr
  cases hr
  refine ⟨rfl, ?_⟩
  intro e he x hx
  simp only [List.mem_cons, List.mem_singleton, List.not_mem_nil, or_false] at he
  rcases he with rfl | rfl
  · simp only [Element.parts, List.mem_singleton] at hx
    subst hx
    exact ⟨rfl, rfl, rfl⟩
  · simp only [Element.parts, List.mem_singleton] at hx
    subst hx
    exact ⟨rfl, rfl, rfl⟩

/-- C2 at an output spec without cloudwatch options, with a secret that holds a key. -/
theorem Conf_debug_fragments_witness :
    IsDebugOutput ⟨true⟩ = true ∧
    Conf sampleEnv ⟨"cw1", "http://localhost", none⟩ ["a", "b"]
        (some ⟨[("aws_access_key_id", "k")]⟩) ⟨true⟩ =
      some [NormalizeGroupAndStreamName sampleEnv
          (LogGroupNameField sampleEnv ⟨"cw1", "http://localhost", none⟩)
          (LogGroupPrefix ⟨"cw1", "http://localhost", none⟩)
          (sampleEnv.FormatComponentID "cw1" ++ "_normalize_group_and_streams") ["a", "b"],
        Element.Debug (sampleEnv.FormatComponentID "cw1")
          (sampleEnv.MakeInputs
            [sampleEnv.FormatComponentID "cw1" ++ "_normalize_group_and_streams"])] :=
  ⟨rfl, (Conf_debug_fragments sampleEnv ⟨"cw1", "http://localhost", none⟩ ["a", "b"]
    (some ⟨[("aws_access_key_id", "k")]⟩) ⟨true⟩ rfl).1⟩

/-- C3: for every output spec with cloudwatch options, input list and secret, without the debug
option `Conf` returns exactly two fragments: the normalization fragment followed by the
CloudWatch sink with component ID `FormatComponentID(o.Name)`, inputs `MakeInputs` of the one
normalize component ID, the region of the cloudwatch options, `SecurityConfig(secret)` and the
endpoint with the URL of the spec.  For the output `cw1` of region `us-east-1` reading from
`app-pipeline` with no secret and no URL, in an environment where the component ID of `cw1` is
`cw1`, the normalizer is keyed `cw1_normalize_group_and_streams` and the sink is keyed `cw1`,
reads from the normalizer alone, and has empty key fields and an empty URL. -/
theorem Conf_sink_fragments (env : Env) (o : OutputSpec) (cw : CloudwatchSpec)
    (inputIDs : List String) (secret : Option Secret) (op : Options)
    (h : o.Cloudwatch = some cw) (hd : IsDebugOutput op = false) :
    Conf env o inputIDs secret op =
      some [NormalizeGroupAndStreamName env (LogGroupNameField env o) (LogGroupPrefix o)
          (env.FormatComponentID o.Name ++ "_normalize_group_and_streams") inputIDs,
        Element.CloudWatch "Cloudwatch Logs" (env.FormatComponentID o.Name)
          (env.MakeInputs [env.FormatComponentID o.Name ++ "_normalize_group_and_streams"])
          cw.Region (Element.Endpoint o.URL) (SecurityConfig secret)] ∧
    (env.FormatComponentID "cw1" = "cw1" →
      ∃ vrl, Conf env ⟨"cw1", "", some ⟨"us-east-1", "", none⟩⟩ ["app-pipeline"] none ⟨false⟩ =
        some [Element.Remap "Cloudwatch Group and Stream Names" "cw1_normalize_group_and_streams"
            (env.MakeInputs ["app-pipeline"]) vrl,
          Element.CloudWatch "Cloudwatch Logs" "cw1"
            (env.MakeInputs ["cw1_normalize_group_and_streams"]) "us-east-1"
            (Element.Endpoint "") (Element.AWSKey "" "")]) := by
  constructor
  · rw [Conf_of_not_debug env o cw inputIDs secret op h hd]
    rfl
  · intro hid
    refine ⟨program env (LogGroupNameField env ⟨"cw1", "", some ⟨"us-east-1", "", none⟩⟩)
      (LogGroupPrefix ⟨"cw1", "", some ⟨"us-east-1", "", none⟩⟩), ?_⟩
    rw [Conf_of_not_debug env ⟨"cw1", "", some ⟨"us-east-1", "", none⟩⟩ ⟨"us-east-1", "", none⟩
      ["app-pipeline"] none ⟨false⟩ rfl rfl, NormalizeGroupAndStreamName_eq]
    have e : "cw1" ++ "_normalize_group_and_streams" = "cw1_normalize_group_and_streams" := by
      decide
    have t : TrimSpace "" = "" := by decide
    simp only [hid, e, OutputConf, EndpointConfig, SecurityConfig, GetFromSecret, t]

/-- C3 in the sample environment, at the output `cw1` of the scenario. -/
theorem Conf_sink_fragments_witness :
    (OutputSpec.mk "cw1" "" (some ⟨"us-east-1", "", none⟩)).Cloudwatch
        = some ⟨"us-east-1", "", none⟩ ∧
    IsDebugOutput ⟨false⟩ = false ∧
    sampleEnv.FormatComponentID "cw1" = "cw1" ∧
    ∃ vrl, Conf sampleEnv ⟨"cw1", "", some ⟨"us-east-1", "", none⟩⟩ ["app-pipeline"] none ⟨false⟩ =
      some [Element.Remap "Cloudwatch Group and Stream Names" "cw1_normalize_group_and_streams"
          (sampleEnv.MakeInputs ["app-pipeline"]) vrl,
        Element.CloudWatch "Cloudwatch Logs" "cw1"
          (sampleEnv.MakeInputs ["cw1_normalize_group_and_streams"]) "us-east-1"
          (Element.Endpoint "") (Element.AWSKey "" "")] :=
  ⟨rfl, rfl, rfl,
    (Conf_sink_fragments sampleEnv ⟨"cw1", "", some ⟨"us-east-1", "", none⟩⟩
      ⟨"us-east-1", "", none⟩ ["app-pipeline"] none ⟨false⟩ rfl rfl).2 rfl⟩

/-- C4: with the debug option set the result of `Conf` does not depend on the credentials, the
region or the endpoint: two output specs with cloudwatch options that agree on the name, the
group-by value and the group name start, whatever their URLs and regions, and any two secrets
(present or absent) give equal fragment lists on the same input list. -/
theorem Conf_debug_independent (env : Env) (o₁ o₂ : OutputSpec) (cw₁ cw₂ : CloudwatchSpec)
    (inputIDs : List String) (s₁ s₂ : Option Secret) (op : Options)
    (h₁ : o₁.Cloudwatch = some cw₁) (h₂ : o₂.Cloudwatch = some cw₂)
    (hn : o₁.Name = o₂.Name) (hg : cw₁.GroupBy = cw₂.GroupBy)
    (hp : cw₁.GroupPrefix = cw₂.GroupPrefix) (hd : IsDebugOutput op = true) :
    Conf env o₁ inputIDs s₁ op = Conf env o₂ inputIDs s₂ op := by
  rw [Conf_of_debug env o₁ inputIDs s₁ op hd, Conf_of_debug env o₂ inputIDs s₂ op hd]
  have e1 : LogGroupNameField env o₁ = LogGroupNameField env o₂ := by
    simp only [LogGroupNameField, h₁, h₂, hg]
  have e2 : LogGroupPrefix o₁ = LogGroupPrefix o₂ := by
    simp only [LogGroupPrefix, h₁, h₂, hp]
  rw [e1, e2, hn]

/-- C4 at two specs named `cw1` that differ in URL and region, with and without a secret. -/
theorem Conf_debug_independent_witness :
    (OutputSpec.mk "cw1" "" (some ⟨"us-east-1", "", some "team-a"⟩)).Cloudwatch
        = some ⟨"us-east-1", "", some "team-a"⟩ ∧
    (OutputSpec.mk "cw1" "http://localhost:4566" (some ⟨"eu-west-2", "", some "team-a"⟩)).Cloudwatch
        = some ⟨"eu-west-2", "", some "team-a"⟩ ∧
    IsDebugOutput ⟨true⟩ = true ∧
    Conf sampleEnv ⟨"cw1", "", some ⟨"us-east-1", "", some "team-a"⟩⟩ ["app-pipeline"] none ⟨true⟩ =
      Conf sampleEnv ⟨"cw1", "http://localhost:4566", some ⟨"eu-west-2", "", some "team-a"⟩⟩
        ["app-pipeline"]
        (some ⟨[("aws_access_key_id", "AKIA"), ("aws_secret_access_key", "s3cr3t")]⟩) ⟨true⟩ :=
  ⟨rfl, rfl, rfl,
    Conf_debug_independent sampleEnv ⟨"cw1", "", some ⟨"us-east-1", "", some "team-a"⟩⟩
      ⟨"cw1", "http://localhost:4566", some ⟨"eu-west-2", "", some "team-a"⟩⟩
      ⟨"us-east-1", "", some "team-a"⟩ ⟨"eu-west-2", "", some "team-a"⟩ ["app-pipeline"] none
      (some ⟨[("aws_access_key_id", "AKIA"), ("aws_secret_access_key", "s3cr3t")]⟩) ⟨true⟩
      rfl rfl rfl rfl rfl rfl⟩

/-! ## The group name start and the group-name field -/

/-- A text followed by a dot is not empty. -/
theorem append_dot_ne_empty (p : String) : p ++ "." ≠ "" := by
  intro h
  have hl := congrArg String.length h
  rw [String.length_append] at hl
  have h1 : (".").length = 1 := rfl
  have h0 : ("").length = 0 := rfl
  omega

/-- What `LogGroupPrefix` computes when the pointer is present and the trimmed value is not
empty. -/
theorem LogGroupPrefix_of_some (o : OutputSpec) (cw : CloudwatchSpec) (p : String)
    (h : o.Cloudwatch = some cw) (hp : cw.GroupPrefix = some p) (ht : TrimSpace p ≠ "") :
    LogGroupPrefix o = p ++ "." := by
  simp only [LogGroupPrefix, h, hp, ne_eq, ht, not_false_eq_true, if_true]

/-- C5: `LogGroupPrefix` returns the empty string exactly when the spec has no cloudwatch
options, or the groupPrefix pointer is absent, or the pointed-to value is empty after trimming
white space; in every other case the result is not empty and is the pointed-to value with one
dot appended.  An unset pointer and the value of three spaces give the empty string, and
`team-a` gives `team-a.`. -/
theorem LogGroupPrefix_empty_iff (o : OutputSpec) :
    (LogGroupPrefix o = "" ↔
      (o.Cloudwatch = none ∨ ∃ cw, o.Cloudwatch = some cw ∧
        (cw.GroupPrefix = none ∨ ∃ p, cw.GroupPrefix = some p ∧ TrimSpace p = ""))) ∧
    (∀ cw p, o.Cloudwatch = some cw → cw.GroupPrefix = some p → TrimSpace p ≠ "" →
      LogGroupPrefix o ≠ "" ∧ LogGroupPrefix o = p ++ ".") ∧
    LogGroupPrefix ⟨"cw1", "", some ⟨"us-east-1", "", none⟩⟩ = "" ∧
    LogGroupPrefix ⟨"cw1", "", some ⟨"us-east-1", "", some "   "⟩⟩ = "" ∧
    LogGroupPrefix ⟨"cw1", "", some ⟨"us-east-1", "", some "team-a"⟩⟩ = "team-a." := by
  have key : ∀ cw p, o.Cloudwatch = some cw → cw.GroupPrefix = some p → TrimSpace p ≠ "" →
      LogGroupPrefix o ≠ "" ∧ LogGroupPrefix o = p ++ "." := by
    intro cw p h hp ht
    have e := LogGroupPrefix_of_some o cw p h hp ht
    exact ⟨by rw [e]; exact append_dot_ne_empty p, e⟩
  refine ⟨⟨?_, ?_⟩, key, by decide, by decide, by decide⟩
  · intro he
    cases h : o.Cloudwatch with
    | none => exact Or.inl rfl
    | some cw =>
      refine Or.inr ⟨cw, rfl, ?_⟩
      cases hp : cw.GroupPrefix with
      | none => exact Or.inl rfl
      | some p =>
        refine Or.inr ⟨p, rfl, ?_⟩
        by_contra ht
        exact (key cw p h hp ht).1 he
  · rintro (h | ⟨cw, h, hp | ⟨p, hp, ht⟩⟩)
    · simp only [LogGroupPrefix, h]
    · simp only [LogGroupPrefix, h, hp]
    · simp only [LogGroupPrefix, h, hp, ht, ne_eq, not_true_eq_false, if_false]

/-- C5 at the value `team-a`: the result is not empty and is `team-a` with one dot appended. -/
theorem LogGroupPrefix_empty_iff_witness :
    TrimSpace "team-a" ≠ "" ∧
    LogGroupPrefix ⟨"cw1", "", some ⟨"us-east-1", "", some "team-a"⟩⟩ ≠ "" ∧
    LogGroupPrefix ⟨"cw1", "", some ⟨"us-east-1", "", some "team-a"⟩⟩ = "team-a" ++ "." :=
  ⟨by decide,
    (LogGroupPrefix_empty_iff ⟨"cw1", "", some ⟨"us-east-1", "", some "team-a"⟩⟩).2.1
      ⟨"us-east-1", "", some "team-a"⟩ "team-a" rfl rfl (by decide)⟩

/-- C6, as stated, fails: for the value `team-a` written with a space before and after it, the
trimmed value is `team-a` and is not empty, yet `LogGroupPrefix` returns the value with its
spaces followed by a dot, not `team-a.`. -/
theorem LogGroupPrefix_keeps_spaces :
    (OutputSpec.mk "cw1" "" (some ⟨"us-east-1", "", some " team-a "⟩)).Cloudwatch
        = some ⟨"us-east-1", "", some " team-a "⟩ ∧
    TrimSpace " team-a " = "team-a" ∧ TrimSpace " team-a " ≠ "" ∧
    LogGroupPrefix ⟨"cw1", "", some ⟨"us-east-1", "", some " team-a "⟩⟩ = " team-a ." ∧
    LogGroupPrefix ⟨"cw1", "", some ⟨"us-east-1", "", some " team-a "⟩⟩
      ≠ TrimSpace " team-a " ++ "." := by
  decide

/-- C6, amended: for every output spec whose groupPrefix pointer is present and whose trimmed
value is not empty, `LogGroupPrefix` returns the pointed-to value as it is written, white space
included, followed by a dot; this is the trimmed value followed by a dot when the value has no
white space around it. -/
theorem LogGroupPrefix_untrimmed (o : OutputSpec) (cw : CloudwatchSpec) (p : String)
    (h : o.Cloudwatch = some cw) (hp : cw.GroupPrefix = some p) (ht : TrimSpace p ≠ "") :
    LogGroupPrefix o = p ++ "." ∧ (TrimSpace p = p → LogGroupPrefix o = TrimSpace p ++ ".") := by
  have e := LogGroupPrefix_of_some o cw p h hp ht
  exact ⟨e, fun hq => by rw [hq]; exact e⟩

/-- C6, amended, at the value `team-a` written with a space before and after it. -/
theorem LogGroupPrefix_untrimmed_witness :
    (OutputSpec.mk "cw1" "" (some ⟨"us-east-1", "", some " team-a "⟩)).Cloudwatch
        = some ⟨"us-east-1", "", some " team-a "⟩ ∧
    TrimSpace " team-a " ≠ "" ∧
    LogGroupPrefix ⟨"cw1", "", some ⟨"us-east-1", "", some " team-a "⟩⟩ = " team-a " ++ "." :=
  ⟨rfl, by decide,
    (LogGroupPrefix_untrimmed ⟨"cw1", "", some ⟨"us-east-1", "", some " team-a "⟩⟩
      ⟨"us-east-1", "", some " team-a "⟩ " team-a " rfl rfl (by decide)).1⟩

/-- C7: for every output spec with cloudwatch options, `LogGroupNameField` returns
`.kubernetes.namespace_name` when groupBy is the by-namespace-name constant,
`.kubernetes.namespace_uid` when it is the by-namespace-uid constant, and `.log_type` for every
other value, the unset (empty) value and unrecognised values included; being a total function
to strings it never fails.  The two constants are distinct, as the cases of a Go switch are. -/
theorem LogGroupNameField_cases (env : Env) (o : OutputSpec) (cw : CloudwatchSpec)
    (h : o.Cloudwatch = some cw)
    (hne : env.LogGroupByNamespaceName ≠ env.LogGroupByNamespaceUUID) :
    (cw.GroupBy = env.LogGroupByNamespaceName →
      LogGroupNameField env o = ".kubernetes.namespace_name") ∧
    (cw.GroupBy = env.LogGroupByNamespaceUUID →
      LogGroupNameField env o = ".kubernetes.namespace_uid") ∧
    (cw.GroupBy ≠ env.LogGroupByNamespaceName → cw.GroupBy ≠ env.LogGroupByNamespaceUUID →
      LogGroupNameField env o = ".log_type") := by
  refine ⟨?_, ?_, ?_⟩
  · intro hg
    simp only [LogGroupNameField, h, hg, if_true]
  · intro hg
    have hn : ¬ env.LogGroupByNamespaceUUID = env.LogGroupByNamespaceName := fun e => hne e.symm
    simp only [LogGroupNameField, h, hg, hn, if_false, if_true]
  · intro h1 h2
    simp only [LogGroupNameField, h, h1, h2, if_false]

/-- C7 in the sample environment: grouping by namespace UID, and the unset and an unrecognised
group-by value. -/
theorem LogGroupNameField_cases_witness :
    sampleEnv.LogGroupByNamespaceName ≠ sampleEnv.LogGroupByNamespaceUUID ∧
    LogGroupNameField sampleEnv ⟨"cw1", "", some ⟨"us-east-1", "namespaceUUID", none⟩⟩
      = ".kubernetes.namespace_uid" ∧
    LogGroupNameField sampleEnv ⟨"cw1", "", some ⟨"us-east-1", "", none⟩⟩ = ".log_type" ∧
    LogGroupNameField sampleEnv ⟨"cw1", "", some ⟨"us-east-1", "byPod", none⟩⟩ = ".log_type" :=
  ⟨by decide,
    (LogGroupNameField_cases sampleEnv ⟨"cw1", "", some ⟨"us-east-1", "namespaceUUID", none⟩⟩
      ⟨"us-east-1", "namespaceUUID", none⟩ rfl (by decide)).2.1 rfl,
    (LogGroupNameField_cases sampleEnv ⟨"cw1", "", some ⟨"us-east-1", "", none⟩⟩
      ⟨"us-east-1", "", none⟩ rfl (by decide)).2.2 (by decide) (by decide),
    (LogGroupNameField_cases sampleEnv ⟨"cw1", "", some ⟨"us-east-1", "byPod", none⟩⟩
      ⟨"us-east-1", "byPod", none⟩ rfl (by decide)).2.2 (by decide) (by decide)⟩

/-! ## The normalization program -/

/-- The application rule, written out. -/
theorem appRule_eq (env : Env) (p f : String) :
    appRule env p f =
      "if ( .log_type == \"application\" ) \x7b\n .group_name = ( " ++ env.Quote p ++ " + " ++ f ++
        " ) ?? \"application\"\n\x7d" := by
  have h1 : "if ( .log_type == \"application\" ) \x7b\n .group_name = ( " =
      "if ( .log_type == \"application\" ) \x7b\n" ++ " .group_name = ( " := by decide
  have h2 : " ) ?? \"application\"\n\x7d" = " ) ?? \"application\"" ++ "\n\x7d" := by decide
  rw [h1, h2]
  simp only [appRule, appAssign, String.append_assoc]

/-- The audit rule, written out. -/
theorem auditRule_eq (p : String) :
    auditRule p =
      "if ( .log_type == \"audit\" ) \x7b\n .group_name = \"" ++ p ++ "audit\"\n" ++
        auditStreamAssign ++ "\n\x7d" := by
  have h1 : "if ( .log_type == \"audit\" ) \x7b\n .group_name = \"" =
      "if ( .log_type == \"audit\" ) \x7b\n .group_name = " ++ "\"" := by decide
  have h2 : "audit\"\n" = "audit" ++ ("\"" ++ "\n") := by decide
  rw [h1, h2]
  simp only [auditRule, auditGroupLiteral, String.append_assoc]

/-- C8: for every group name start `p` and group-name field `f`, the program produced by
`NormalizeGroupAndStreamName` contains the conditional on `.log_type == "application"` whose
body is the one assignment of `.group_name` to the expression made of `p` as a quoted string
literal, `+` and `f`, between brackets, with the literal `"application"`, to which `p` is not
applied, as the fallback. -/
theorem NormalizeGroupAndStreamName_application_rule (env : Env) (f p cid : String)
    (inputs : List String) :
    ∃ before after, NormalizeGroupAndStreamName env f p cid inputs =
      Element.Remap "Cloudwatch Group and Stream Names" cid (env.MakeInputs inputs)
        (before ++
          ("if ( .log_type == \"application\" ) \x7b\n .group_name = ( " ++ env.Quote p ++ " + " ++
            f ++ " ) ?? \"application\"\n\x7d") ++ after) := by
  refine ⟨defaultsText ++ fileRule,
    "\n" ++ auditRule p ++ "\n" ++ infraRule p ++ "\n" ++ journalRule ++ "\n" ++ deletions, ?_⟩
  rw [NormalizeGroupAndStreamName_eq, ← appRule_eq]
  simp only [program, String.append_assoc]

/-- Reading back a text without double quote and backslash, followed by a closing quote. -/
theorem readLiteral_plain (l k : List Char) (h : ∀ c ∈ l, c ≠ '"' ∧ c ≠ '\\') :
    readLiteral (l ++ '"' :: k) = some (l, k) := by
  induction l with
  | nil => simp [readLiteral]
  | cons c t ih =>
    have hc := h c (List.mem_cons_self c t)
    have ht := ih (fun x hx => h x (List.mem_cons_of_mem c hx))
    rw [List.cons_append, readLiteral, ht]
    · exact hc.1
    · intro c2 r2 e
      exact absurd e hc.2

/-- For a group name start without double quote and backslash, the text that the audit rule
assigns to `.group_name` denotes the start followed by `audit`. -/
theorem denoted_auditGroupLiteral (p : String) (h : ∀ c ∈ p.data, c ≠ '"' ∧ c ≠ '\\') :
    denoted (auditGroupLiteral p) = some (p ++ "audit", "") := by
  have e : (auditGroupLiteral p).data = '"' :: ((p ++ "audit").data ++ '"' :: []) := by
    simp only [auditGroupLiteral, String.data_append, List.append_assoc]
    rfl
  have hq : ∀ c ∈ (p ++ "audit").data, c ≠ '"' ∧ c ≠ '\\' := by
    intro c hc
    rw [String.data_append, List.mem_append] at hc
    rcases hc with hc | hc
    · exact h c hc
    · have : c ∈ ['a', 'u', 'd', 'i', 't'] := hc
      simp only [List.mem_cons, List.mem_singleton, List.not_mem_nil, or_false] at this
      rcases this with rfl | rfl | rfl | rfl | rfl <;> decide
  unfold denoted
  rw [e]
  simp only [readLiteral_plain _ _ hq, Option.map_some']

/-- C9 fails on the code at a group name start that contains a double quote.  The pointed-to
value `a"b` gives the group name start `a"b.`; the audit rule then assigns to `.group_name` the
text `"a"b.audit"`, in which the literal closes after `a`: the string denoted is `a`, followed
by the stray text `b.audit"`, and not `a"b.audit`. -/
theorem NormalizeGroupAndStreamName_audit_literal_broken (env : Env) (f cid : String)
    (inputs : List String) :
    LogGroupPrefix ⟨"cw1", "", some ⟨"us-east-1", "", some "a\"b"⟩⟩ = "a\"b." ∧
    (∃ before after, NormalizeGroupAndStreamName env f "a\"b." cid inputs =
      Element.Remap "Cloudwatch Group and Stream Names" cid (env.MakeInputs inputs)
        (before ++ ("if ( .log_type == \"audit\" ) \x7b\n .group_name = " ++ "\"a\"b.audit\"\n" ++
          auditStreamAssign ++ "\n\x7d") ++ after)) ∧
    denoted "\"a\"b.audit\"\n" = some ("a", "b.audit\"\n") ∧
    "a" ≠ "a\"b." ++ "audit" := by
  refine ⟨by decide, ?_, by decide, by decide⟩
  refine ⟨defaultsText ++ fileRule ++ appRule env "a\"b." f ++ "\n",
    "\n" ++ infraRule "a\"b." ++ "\n" ++ journalRule ++ "\n" ++ deletions, ?_⟩
  have h : "if ( .log_type == \"audit\" ) \x7b\n .group_name = " ++ "\"a\"b.audit\"\n" =
      "if ( .log_type == \"audit\" ) \x7b\n .group_name = \"" ++ "a\"b." ++ "audit\"\n" := by
    decide
  rw [NormalizeGroupAndStreamName_eq, h, ← auditRule_eq]
  simp only [program, String.append_assoc]

/-- C10: for every group name start and group-name field, the program text produced by
`NormalizeGroupAndStreamName` is the concatenation, in this order, of the two default
assignments, the rule on `.file != null`, the application rule, the audit rule, the
infrastructure rule, the rule on `.tag == ".journal.system"` and the deletions (one line break
between consecutive conditionals); in particular the assignment to `.stream_name` of the
journal-system rule stands after the one of the audit rule. -/
theorem NormalizeGroupAndStreamName_rule_order (env : Env) (f p cid : String)
    (inputs : List String) :
    NormalizeGroupAndStreamName env f p cid inputs =
      Element.Remap "Cloudwatch Group and Stream Names" cid (env.MakeInputs inputs)
        (defaultsText ++ fileRule ++ appRule env p f ++ "\n" ++ auditRule p ++ "\n" ++
          infraRule p ++ "\n" ++ journalRule ++ "\n" ++ deletions) ∧
    NormalizeGroupAndStreamName env f p cid inputs =
      Element.Remap "Cloudwatch Group and Stream Names" cid (env.MakeInputs inputs)
        ((defaultsText ++ fileRule ++ appRule env p f ++ "\n" ++
            "if ( .log_type == \"audit\" ) \x7b\n .group_name = " ++ auditGroupLiteral p ++ "\n") ++
          auditStreamAssign ++
          ("\n\x7d" ++ "\n" ++ infraRule p ++ "\n" ++ "if ( .tag == \".journal.system\" ) \x7b\n") ++
          journalStreamAssign ++
          ("\n\x7d" ++ "\n" ++ deletions)) := by
  constructor
  · rw [NormalizeGroupAndStreamName_eq, program]
  · rw [NormalizeGroupAndStreamName_eq]
    simp only [program, auditRule, journalRule, String.append_assoc]

/-! ## The end of the program -/

/-- A text has at least one line. -/
theorem linesOf_ne_nil (l : List Char) : linesOf l ≠ [] := by
  cases l with
  | nil => simp [linesOf]
  | cons c t =>
    rw [linesOf]
    split
    · simp
    · split <;> simp

/-- The lines of two texts joined by a line break are the lines of the first followed by the
lines of the second. -/
theorem linesOf_append_newline (a b : List Char) :
    linesOf (a ++ '\n' :: b) = linesOf a ++ linesOf b := by
  induction a with
  | nil => simp [linesOf]
  | cons c t ih =>
    rw [List.cons_append, linesOf, ih, linesOf]
    by_cases hc : c = '\n'
    · simp only [hc, if_true, List.cons_append]
    · simp only [hc, if_false]
      cases ht : linesOf t with
      | nil => exact absurd ht (linesOf_ne_nil t)
      | cons l ls => simp only [List.cons_append]

/-- The program ends with the closing bracket of the last conditional and the two deletions. -/
theorem program_ending (env : Env) (f p : String) :
    program env f p =
      programBody env f p ++ "\n" ++ "\x7d" ++ "\n" ++ "del(.tag)" ++ "\n" ++ "del(.source_type)" := by
  have h1 : deletions = "del(.tag)" ++ ("\n" ++ "del(.source_type)") := by decide
  have h2 : "\n\x7d" = "\n" ++ "\x7d" := by decide
  simp only [program, programBody, journalRule, h1, h2, String.append_assoc]

/-- C11: for every group name start, group-name field, component ID and input list, the program
text of the fragment returned by `NormalizeGroupAndStreamName` ends with the closing bracket of
the last conditional on a line of its own, followed by `del(.tag)` and `del(.source_type)` as
the last two lines: the two deletions stand outside the conditionals and nothing, not even
white space, follows them. -/
theorem NormalizeGroupAndStreamName_ends_with_deletions (env : Env) (f p cid : String)
    (inputs : List String) :
    ∃ vrl body : String, ∃ ls : List (List Char),
      NormalizeGroupAndStreamName env f p cid inputs =
        Element.Remap "Cloudwatch Group and Stream Names" cid (env.MakeInputs inputs) vrl ∧
      vrl = body ++ "\n" ++ "\x7d" ++ "\n" ++ "del(.tag)" ++ "\n" ++ "del(.source_type)" ∧
      linesOf vrl.data = ls ++ ["\x7d".data, "del(.tag)".data, "del(.source_type)".data] := by
  refine ⟨program env f p, programBody env f p, linesOf (programBody env f p).data,
    NormalizeGroupAndStreamName_eq env f p cid inputs, program_ending env f p, ?_⟩
  have hd : (programBody env f p ++ "\n" ++ "\x7d" ++ "\n" ++ "del(.tag)" ++ "\n" ++
      "del(.source_type)").data =
      (programBody env f p).data ++ '\n' :: (("\x7d" : String).data ++
        '\n' :: (("del(.tag)" : String).data ++ '\n' :: ("del(.source_type)" : String).data)) := by
    simp only [String.data_append, List.append_assoc]
    rfl
  have e1 : linesOf ("\x7d" : String).data = [("\x7d" : String).data] := by decide
  have e2 : linesOf ("del(.tag)" : String).data = [("del(.tag)" : String).data] := by decide
  have e3 : linesOf ("del(.source_type)" : String).data = [("del(.source_type)" : String).data] := by
    decide
  rw [program_ending, hd, linesOf_append_newline, linesOf_append_newline, linesOf_append_newline,
    e1, e2, e3]
  rfl

/-! ## The credentials -/

/-- A list is what is left after dropping from its end, followed by what was dropped. -/
theorem rdropWhile_append_rtakeWhile_eq (q : Char → Bool) (l : List Char) :
    l.rdropWhile q ++ l.rtakeWhile q = l := by
  unfold List.rdropWhile List.rtakeWhile
  rw [← List.reverse_append, List.takeWhile_append_dropWhile, List.reverse_reverse]

/-- The result of `TrimSpace` is the trimmed form of its argument: white space is removed at
both ends, and only there. -/
theorem TrimSpace_isTrimmedOf (v : String) : IsTrimmedOf (TrimSpace v) v := by
  have hm : (TrimSpace v).data = (v.data.dropWhile isSpace).rdropWhile isSpace := rfl
  refine ⟨⟨v.data.takeWhile isSpace, (v.data.dropWhile isSpace).rtakeWhile isSpace, ?_, ?_, ?_⟩,
    ?_, ?_⟩
  · rw [hm, List.append_assoc, rdropWhile_append_rtakeWhile_eq,
      List.takeWhile_append_dropWhile]
  · intro c hc
    exact List.mem_takeWhile_imp hc
  · intro c hc
    exact List.mem_rtakeWhile_imp hc
  · intro c k hk
    rw [hm] at hk
    obtain ⟨r, hr⟩ := List.rdropWhile_prefix isSpace (v.data.dropWhile isSpace)
    rw [hk, List.cons_append] at hr
    have h := List.head?_dropWhile_not isSpace v.data
    rw [← hr] at h
    exact h
  · intro k c hk
    rw [hm] at hk
    have hne : (v.data.dropWhile isSpace).rdropWhile isSpace ≠ [] := by
      rw [hk]; simp
    have h := List.rdropWhile_last_not isSpace (v.data.dropWhile isSpace) hne
    simp only [hk, List.getLast_append_singleton] at h
    simpa using h

/-- C12: `SecurityConfig` is a total function, so it never fails.  For an absent secret it
returns the `AWSKey` with the empty string as key ID and as key secret.  For a present secret
the key ID is the trimmed form of the value stored under `aws_access_key_id`, the empty string
if the key is missing, and the key secret likewise for `aws_secret_access_key`; the trimmed form
has the white space at both ends removed. -/
theorem SecurityConfig_values :
    SecurityConfig none = Element.AWSKey "" "" ∧
    (∀ s : Secret, ∃ id key : String,
      SecurityConfig (some s) = Element.AWSKey id key ∧
      IsTrimmedOf id ((s.Data.lookup "aws_access_key_id").getD "") ∧
      IsTrimmedOf key ((s.Data.lookup "aws_secret_access_key").getD "") ∧
      (s.Data.lookup "aws_access_key_id" = none → id = "") ∧
      (s.Data.lookup "aws_secret_access_key" = none → key = "")) := by
  have t : TrimSpace "" = "" := by decide
  refine ⟨by simp only [SecurityConfig, GetFromSecret, t], ?_⟩
  intro s
  refine ⟨TrimSpace ((s.Data.lookup "aws_access_key_id").getD ""),
    TrimSpace ((s.Data.lookup "aws_secret_access_key").getD ""), rfl,
    TrimSpace_isTrimmedOf _, TrimSpace_isTrimmedOf _, ?_, ?_⟩
  · intro h
    rw [h]
    exact t
  · intro h
    rw [h]
    exact t

/-- C12 at a secret whose key ID is written with white space around it and whose key secret is
missing. -/
theorem SecurityConfig_values_witness :
    SecurityConfig (some ⟨[("aws_access_key_id", " AKIA\n")]⟩) = Element.AWSKey "AKIA" "" ∧
    ∃ id key : String,
      SecurityConfig (some ⟨[("aws_access_key_id", " AKIA\n")]⟩) = Element.AWSKey id key ∧
      IsTrimmedOf id " AKIA\n" ∧ key = "" :=
  ⟨by decide,
    match SecurityConfig_values.2 ⟨[("aws_access_key_id", " AKIA\n")]⟩ with
    | ⟨id, key, h1, h2, _, _, h5⟩ => ⟨id, key, h1, h2, h5 (by decide)⟩⟩

/-! ## The templates -/

/-- The length of a concatenation of three texts. -/
theorem length_append3 (a b c : String) :
    (a ++ b ++ c).length = a.length + b.length + c.length := by
  rw [String.length_append, String.length_append]

/-- The template of an endpoint without URL. -/
theorem Endpoint_Template_empty (e : Endpoint) (h : e.URL = "") :
    e.Template = "\x7b\x7bdefine \"awsEndpointTemplate\" -\x7d\x7d" ++ "\x7b\x7bend\x7d\x7d" := by
  simp only [Endpoint.Template, Endpoint.Name, h, ne_eq, not_true_eq_false, if_false]
  decide

/-- The template of an endpoint with a URL. -/
theorem Endpoint_Template_url (e : Endpoint) (h : e.URL ≠ "") :
    e.Template = "\x7b\x7bdefine \"awsEndpointTemplate\" -\x7d\x7d" ++
      ("endpoint = \"\x7b\x7b .URL \x7d\x7d\"" ++ "\n" ++ "tls.verify_certificate = false") ++
      "\x7b\x7bend\x7d\x7d" := by
  simp only [Endpoint.Template, Endpoint.Name, ne_eq, h, not_false_eq_true, if_true]
  decide

/-- C13: for every output spec `o`, `EndpointConfig(o)` is the endpoint with the URL of `o`, and
its template contains the line `endpoint = "{{ .URL }}"` followed by the line
`tls.verify_certificate = false` if and only if `o.URL` is not the empty string: with a URL the
template is the wrapper named `awsEndpointTemplate` around these two lines, and without a URL
it is exactly the wrapper with an empty body. -/
theorem EndpointConfig_template (o : OutputSpec) :
    EndpointConfig o = (Endpoint.mk o.URL).toElement ∧
    (o.URL ≠ "" → (Endpoint.mk o.URL).Template =
      "\x7b\x7bdefine \"awsEndpointTemplate\" -\x7d\x7d" ++
        ("endpoint = \"\x7b\x7b .URL \x7d\x7d\"" ++ "\n" ++ "tls.verify_certificate = false") ++
        "\x7b\x7bend\x7d\x7d") ∧
    (o.URL = "" → (Endpoint.mk o.URL).Template =
      "\x7b\x7bdefine \"awsEndpointTemplate\" -\x7d\x7d" ++ "\x7b\x7bend\x7d\x7d") ∧
    ((∃ before after : String, (Endpoint.mk o.URL).Template =
        before ++
          ("endpoint = \"\x7b\x7b .URL \x7d\x7d\"" ++ "\n" ++ "tls.verify_certificate = false") ++
          after) ↔ o.URL ≠ "") := by
  refine ⟨rfl, fun h => Endpoint_Template_url ⟨o.URL⟩ h, fun h => Endpoint_Template_empty ⟨o.URL⟩ h,
    ⟨?_, fun h => ⟨_, _, Endpoint_Template_url ⟨o.URL⟩ h⟩⟩⟩
  rintro ⟨before, after, hb⟩ hu
  rw [Endpoint_Template_empty ⟨o.URL⟩ hu] at hb
  have hl := congrArg String.length hb
  rw [length_append3] at hl
  have h1 : ("\x7b\x7bdefine \"awsEndpointTemplate\" -\x7d\x7d" ++ "\x7b\x7bend\x7d\x7d").length = 41 := by
    decide
  have h2 : ("endpoint = \"\x7b\x7b .URL \x7d\x7d\"" ++ "\n" ++
      "tls.verify_certificate = false").length = 54 := by decide
  rw [h1, h2] at hl
  omega

/-- C13 at an output with the URL of a local endpoint, and at an output without URL. -/
theorem EndpointConfig_template_witness :
    (OutputSpec.mk "cw1" "http://localhost:4566" none).URL ≠ "" ∧
    (Endpoint.mk "http://localhost:4566").Template =
      "\x7b\x7bdefine \"awsEndpointTemplate\" -\x7d\x7d" ++
        ("endpoint = \"\x7b\x7b .URL \x7d\x7d\"" ++ "\n" ++ "tls.verify_certificate = false") ++
        "\x7b\x7bend\x7d\x7d" ∧
    (Endpoint.mk "").Template =
      "\x7b\x7bdefine \"awsEndpointTemplate\" -\x7d\x7d" ++ "\x7b\x7bend\x7d\x7d" :=
  ⟨by decide,
    (EndpointConfig_template ⟨"cw1", "http://localhost:4566", none⟩).2.1 (by decide),
    (EndpointConfig_template ⟨"cw1", "", none⟩).2.2.1 rfl⟩

/-- C14, as stated, fails for endpoints: the endpoint without URL and the endpoint with the URL
of a local endpoint have the same name and different template texts. -/
theorem Endpoint_same_Name_other_Template :
    (Endpoint.mk "").Name = (Endpoint.mk "http://localhost:4566").Name ∧
    (Endpoint.mk "").Template ≠ (Endpoint.mk "http://localhost:4566").Template := by
  decide

/-- C14, amended: any two `CloudWatch` values have the same name and the same template text;
any two `Endpoint` values have the same name, `awsEndpointTemplate`, and their template texts
are the same exactly when their URLs are both empty or both not empty. -/
theorem Name_Template_identity :
    (∀ c₁ c₂ : CloudWatch, c₁.Name = c₂.Name ∧ c₁.Template = c₂.Template) ∧
    (∀ e₁ e₂ : Endpoint, e₁.Name = e₂.Name ∧ e₁.Name = "awsEndpointTemplate" ∧
      (e₁.Template = e₂.Template ↔ (e₁.URL = "" ↔ e₂.URL = ""))) := by
  refine ⟨fun _ _ => ⟨rfl, rfl⟩, fun e₁ e₂ => ⟨rfl, rfl, ?_⟩⟩
  have hne : "\x7b\x7bdefine \"awsEndpointTemplate\" -\x7d\x7d" ++ "\x7b\x7bend\x7d\x7d" ≠
      "\x7b\x7bdefine \"awsEndpointTemplate\" -\x7d\x7d" ++
        ("endpoint = \"\x7b\x7b .URL \x7d\x7d\"" ++ "\n" ++ "tls.verify_certificate = false") ++
        "\x7b\x7bend\x7d\x7d" := by decide
  by_cases h₁ : e₁.URL = "" <;> by_cases h₂ : e₂.URL = ""
  · simp only [h₁, h₂, iff_true]
    rw [Endpoint_Template_empty e₁ h₁, Endpoint_Template_empty e₂ h₂]
  · simp only [h₁, h₂, iff_false, not_true_eq_false]
    rw [Endpoint_Template_empty e₁ h₁, Endpoint_Template_url e₂ h₂]
    exact hne
  · simp only [h₁, h₂, false_iff, not_true_eq_false, iff_false]
    rw [Endpoint_Template_url e₁ h₁, Endpoint_Template_empty e₂ h₂]
    exact fun h => hne h.symm
  · simp only [h₁, h₂, iff_true]
    rw [Endpoint_Template_url e₁ h₁, Endpoint_Template_url e₂ h₂]

/-- C15, as stated, fails with the debug option: for the output `cw1` without cloudwatch options
`Conf` does not fail; it returns the normalization fragment built from the empty group-name
field and the empty group name start, followed by the Debug sink. -/
theorem Conf_debug_without_cloudwatch :
    (OutputSpec.mk "cw1" "" none).Cloudwatch = none ∧
    LogGroupNameField sampleEnv ⟨"cw1", "", none⟩ = "" ∧
    Conf sampleEnv ⟨"cw1", "", none⟩ ["app-pipeline"] none ⟨true⟩ =
      some [NormalizeGroupAndStreamName sampleEnv "" "" "cw1_normalize_group_and_streams"
          ["app-pipeline"],
        Element.Debug "cw1" (sampleEnv.MakeInputs ["cw1_normalize_group_and_streams"])] ∧
    Conf sampleEnv ⟨"cw1", "", none⟩ ["app-pipeline"] none ⟨true⟩ ≠ none := by
  have e : sampleEnv.FormatComponentID "cw1" ++ "_normalize_group_and_streams" =
      "cw1_normalize_group_and_streams" := by decide
  have h : Conf sampleEnv ⟨"cw1", "", none⟩ ["app-pipeline"] none ⟨true⟩ =
      some [NormalizeGroupAndStreamName sampleEnv "" "" "cw1_normalize_group_and_streams"
          ["app-pipeline"],
        Element.Debug "cw1" (sampleEnv.MakeInputs ["cw1_normalize_group_and_streams"])] := by
    rw [Conf_of_debug sampleEnv ⟨"cw1", "", none⟩ ["app-pipeline"] none ⟨true⟩ rfl]
    simp only [e]
    rfl
  refine ⟨rfl, rfl, h, ?_⟩
  rw [h]
  simp

/-- C15, amended: for every output spec without the cloudwatch options, `Conf` without the
debug option fails (it reads the region through the nil pointer) and returns no fragment; with
the debug option it returns the normalization fragment built from the empty group-name field
and the empty group name start, followed by the Debug sink. -/
theorem Conf_without_cloudwatch (env : Env) (o : OutputSpec) (inputIDs : List String)
    (secret : Option Secret) (op : Options) (h : o.Cloudwatch = none) :
    (IsDebugOutput op = false → Conf env o inputIDs secret op = none) ∧
    (IsDebugOutput op = true → Conf env o inputIDs secret op =
      some [NormalizeGroupAndStreamName env "" ""
          (env.FormatComponentID o.Name ++ "_normalize_group_and_streams") inputIDs,
        Element.Debug (env.FormatComponentID o.Name)
          (env.MakeInputs [env.FormatComponentID o.Name ++ "_normalize_group_and_streams"])]) := by
  constructor
  · intro hd
    unfold Conf
    simp only [hd, h, Bool.false_eq_true, if_false]
  · intro hd
    rw [Conf_of_debug env o inputIDs secret op hd]
    simp only [LogGroupNameField, LogGroupPrefix, h]

/-- C15, amended, at the output `cw1` without cloudwatch options and without the debug
option. -/
theorem Conf_without_cloudwatch_witness :
    (OutputSpec.mk "cw1" "" none).Cloudwatch = none ∧
    IsDebugOutput ⟨false⟩ = false ∧
    Conf sampleEnv ⟨"cw1", "", none⟩ ["app-pipeline"] none ⟨false⟩ = none :=
  ⟨rfl, rfl,
    (Conf_without_cloudwatch sampleEnv ⟨"cw1", "", none⟩ ["app-pipeline"] none ⟨false⟩ rfl).1 rfl⟩

/-- C16: the sink template is fixed: every `CloudWatch` value has the same template text, and
this text is, after the wrapper named `cloudwatchTemplate` with the optional description line,
the header `[sinks.{{.ComponentID}}]`, the type `aws_cloudwatch_logs`, the inputs line, the
region line, `compression = "none"`, the group-name and stream-name placeholders, the security
element, `encoding.codec = "json"`, `request.concurrency = 2` and the endpoint element, one per
line in this order, and then the end of the wrapper. -/
theorem CloudWatch_Template_fixed (e₁ e₂ : CloudWatch) :
    e₁.Template = e₂.Template ∧
    e₁.Template =
      "\x7b\x7bdefine \"cloudwatchTemplate\" -\x7d\x7d\n\x7b\x7bif .Desc -\x7d\x7d\n# \x7b\x7b.Desc\x7d\x7d\n\x7b\x7bend -\x7d\x7d\n" ++
        "[sinks.\x7b\x7b.ComponentID\x7d\x7d]\n" ++
        "type = \"aws_cloudwatch_logs\"\n" ++
        "inputs = \x7b\x7b.Inputs\x7d\x7d\n" ++
        "region = \"\x7b\x7b.Region\x7d\x7d\"\n" ++
        "compression = \"none\"\n" ++
        "group_name = \"\x7b\x7b\"\x7b\x7b group_name \x7d\x7d\"\x7d\x7d\"\n" ++
        "stream_name = \"\x7b\x7b\"\x7b\x7b stream_name \x7d\x7d\"\x7d\x7d\"\n" ++
        "\x7b\x7bcompose_one .SecurityConfig\x7d\x7d\n" ++
        "encoding.codec = \"json\"\n" ++
        "request.concurrency = 2\n" ++
        "\x7b\x7bcompose_one .EndpointConfig\x7d\x7d\n" ++
        "\x7b\x7b- end\x7d\x7d\n" := by
  refine ⟨rfl, ?_⟩
  simp [CloudWatch.Template, CloudWatch.Name]

end Cloudwatch
